import Mathlib

/-!
Shallow embedding of the FraudGuard touch-scoring pipeline
(`ml/touch/serve_sklearn.py`, `ml/touch/infer_autoencoder.py`,
`ml/touch/gesture_map.py`), over exact rational arithmetic.

Conventions:
* Python floats are modelled as `ℚ`.
* A parsed JSON value (the result of `json.loads`) is a `JVal`; a JSON
  object is an association list whose keys are unique (as produced by
  Python's `dict`).  `json.loads` itself is Python stdlib, not repository
  code, so the serve loop is parameterised by an abstract parse function.
* Fallible Python code (raising exceptions) is modelled with `Except`.
-/

namespace FraudGuard

/-- A parsed JSON value, as produced by Python's `json.loads`. -/
inductive JVal where
  | jnull
  | jbool (b : Bool)
  | jnum (q : ℚ)
  | jstr (s : String)
  | jarr (l : List JVal)
  | jobj (fields : List (String × JVal))

/-- Python `dict.get k` on a JSON object (keys unique): the value bound to `k`,
if any. -/
def lookup (k : String) (fields : List (String × JVal)) : Option JVal :=
  (fields.find? (fun p => p.1 = k)).map (fun p => p.2)

/-- The `SCALES` table of `serve_sklearn.py` / `score_once_sklearn.py`:
feature key to divisor. -/
def SCALES : List (String × ℚ) :=
  [("duration_ms", 500), ("total_distance", 300), ("avg_velocity", 1),
   ("peak_velocity", 5), ("avg_pressure", 1), ("peak_pressure", 1),
   ("path_deviation", 5), ("direction_changes", 5), ("jitter", 3)]

/-- Python's `isinstance(v, (int, float))` filter followed by `float(v)`:
JSON numbers convert to themselves, and JSON booleans are accepted
(`bool` is a subclass of `int` in Python) converting to 0/1.  Everything
else (`null`, strings, arrays, objects) is rejected. -/
def numVal : JVal → Option ℚ
  | .jnum q => some q
  | .jbool b => some (if b then 1 else 0)
  | _ => none

/-- The value the serve loop can use for feature key `k` of a record:
present and numeric, else `none`. -/
def usableVal (features : List (String × JVal)) (k : String) : Option ℚ :=
  (lookup k features).bind numVal

/-- Function `compute_mse` of `serve_sklearn.py` (identical in
`score_once_sklearn.py`): average of `(float(v)/scale)**2` over the
`SCALES` keys present with a numeric value; `0.0` when no key is usable. -/
def compute_mse (features : List (String × JVal)) : ℚ :=
  let vals := SCALES.filterMap fun p =>
    (usableVal features p.1).map fun q => (q / p.2) ^ 2
  if vals = [] then 0 else vals.sum / vals.length

/-- One output line of the persistent service. -/
inductive Output where
  | ok (mse threshold score : ℚ)
  | err (msg : String)
deriving DecidableEq, Repr

/-- Handling of one successfully parsed JSON value in the serve loop:
a JSON object is scored (`threshold = 1.0`,
`score = max(0.0, min(1.0, mse / threshold))`); any other value makes
`data.get` raise `AttributeError`, which the `except` clause turns into
an error line. -/
def processData : JVal → Output
  | .jobj features =>
      let mse := compute_mse features
      let threshold : ℚ := 1
      let score := max 0 (min 1 (mse / threshold))
      .ok mse threshold score
  | _ => .err "AttributeError"

/-- Python's `line.strip()` (for the ASCII whitespace the protocol can
contain): drop leading and trailing whitespace characters. -/
def pyStrip (s : String) : String :=
  String.mk
    (((s.data.dropWhile Char.isWhitespace).reverse.dropWhile
        Char.isWhitespace).reverse)

/-- One iteration of the `for line in sys.stdin` loop of
`serve_sklearn.py`: strip the line; skip it entirely when empty
(`continue`); otherwise parse (abstract `parse` stands for
`json.loads`), emitting one error line on parse failure and one result
line on success.  Returns the lines written for this input line. -/
def serveStep (parse : String → Except String JVal) (line : String) :
    List Output :=
  let l := pyStrip line
  if l.data.isEmpty then []
  else
    match parse l with
    | .error e => [.err e]
    | .ok v => [processData v]

/-- The whole serve loop over a finite input stream. -/
def serveLines (parse : String → Except String JVal) :
    List String → List Output
  | [] => []
  | l :: rest => serveStep parse l ++ serveLines parse rest

/-! ### `ml/touch/gesture_map.py`

A Python `dict` is modelled as an association list in insertion order
(Python dicts preserve insertion order and have unique keys); iteration
in `from_numeric` visits entries in that order. -/

/-- The `DEFAULT_MAP` of `gesture_map.py`. -/
def DEFAULT_MAP : List (String × ℚ) := [("TAP", 0), ("SWIPE", 1)]

/-- Function `to_numeric(gesture, mapping, default)`: the value bound to the
label when present, else the default when supplied, else a `KeyError`. -/
def to_numeric (gesture : String) (mapping : List (String × ℚ))
    (default : Option ℚ := none) : Except String ℚ :=
  match mapping.find? (fun p => p.1 = gesture) with
  | some p => .ok p.2
  | none =>
      match default with
      | some d => .ok d
      | none => .error ("Unknown gesture label: " ++ gesture)

/-- Function `from_numeric(value, mapping, tol)`: the first label (in mapping
order) whose value is within `tol` of `value`, else a `KeyError`. -/
def from_numeric (value : ℚ) (mapping : List (String × ℚ))
    (tol : ℚ := 1 / 1000000) : Except String String :=
  match mapping.find? (fun p => decide (|p.2 - value| ≤ tol)) with
  | some p => .ok p.1
  | none => .error "No label found for numeric value"

/-! ### `ml/touch/infer_autoencoder.py`

A CSV row is a gesture label plus its nine numeric measurements; a
feature matrix is a list of rows of rationals.  The reconstruction
models (`model.predict` for the sklearn backend, the TFLite interpreter
for the compact one) are external artifacts, so they enter the embedding
as abstract functions from matrices to matrices. -/

/-- One row of the no-header input CSV: the label followed by the nine
numeric measurements. -/
structure CsvRow where
  label : String
  fields : List ℚ
deriving DecidableEq, Repr

/-- The filter `df[0].astype(str).isin(gesture_map.keys())` applied to a
row: its first column is a known gesture label. -/
def knownRow (mapping : List (String × ℚ)) (r : CsvRow) : Bool :=
  (mapping.find? (fun p => p.1 = r.label)).isSome

/-- The feature vector of a kept row:
`gesture_num` (the label's code in the default map) followed by the nine
measurement columns, in the fixed `feats` order. -/
def encodeRow (r : CsvRow) : List ℚ :=
  (((DEFAULT_MAP.find? (fun p => p.1 = r.label)).map (fun p => p.2)).getD 0)
    :: r.fields

/-- Function `load_csv`: keep only rows whose first column is a known gesture of
the default map; raise `ValueError` when none remain; otherwise return
the feature matrix of the kept rows, in input order. -/
def load_csv (rows : List CsvRow) : Except String (List (List ℚ)) :=
  let kept := rows.filter (knownRow DEFAULT_MAP)
  if kept.isEmpty then
    .error "No valid rows found. Ensure first column is a known gesture"
  else
    .ok (kept.map encodeRow)

/-- Function `load_threshold`: read the `"threshold"` key of the parsed JSON and
convert it with `float(...)`; a missing key (or JSON `null`, which
`data.get` also returns as `None`) raises `ValueError`.  The number and
boolean cases of Python's `float` are modelled; `float` on other values
raises, which is folded into the error case (numeric-string thresholds
are not modelled). -/
def load_threshold (j : List (String × JVal)) : Except String ℚ :=
  match lookup "threshold" j with
  | none | some .jnull => .error "threshold.json missing key"
  | some (.jnum q) => .ok q
  | some (.jbool b) => .ok (if b then 1 else 0)
  | some _ => .error "float() argument error"

/-- The guard `np.where(scale == 0.0, 1.0, scale)` on one entry. -/
def safeScale (s : ℚ) : ℚ := if s = 0 then 1 else s

/-- The transform `(X - mean) / scale_safe` on one row (numpy broadcasting applied
row-wise). -/
def stdRow (row mean scale : List ℚ) : List ℚ :=
  List.zipWith3 (fun x m s => (x - m) / safeScale s) row mean scale

/-- Number of columns of a (rectangular) matrix, `X.shape[1]`. -/
def ncols (X : List (List ℚ)) : ℕ :=
  ((X.head?).map List.length).getD 0

/-- Function `standardize_with_json`: check both scaler vectors against
`X.shape[1]`, then standardize every row with the zero-scale guard. -/
def standardize_with_json (X : List (List ℚ)) (mean scale : List ℚ) :
    Except String (List (List ℚ)) :=
  if mean.length ≠ ncols X ∨ scale.length ≠ ncols X then
    .error "Scaler dim does not match input dim"
  else
    .ok (X.map (fun row => stdRow row mean scale))

/-- numpy shape equality `recon.shape == Xs.shape` for row-major
matrices: same row count and the same length row by row. -/
def shapeEq (a b : List (List ℚ)) : Bool :=
  a.length == b.length && a.map List.length == b.map List.length

/-- Per-sample reconstruction error
`((Xs - recon) ** 2).mean(axis=1)` on one row pair. -/
def rowMse (x r : List ℚ) : ℚ :=
  let ds := List.zipWith (fun a b => (a - b) ^ 2) x r
  ds.sum / ds.length

/-- Function `score_with_sklearn`, on the `scaler.json` branch (the
`scaler.joblib` branch delegates to sklearn's own transform, an external
artifact): standardize, reconstruct with the loaded model, reject a
reconstruction whose shape differs from the input, then return the
per-row mse together with the loaded threshold. -/
def score_with_sklearn (X : List (List ℚ)) (mean scale : List ℚ)
    (model : List (List ℚ) → List (List ℚ)) (thrJson : List (String × JVal)) :
    Except String (List ℚ × ℚ) :=
  match standardize_with_json X mean scale with
  | .error e => .error e
  | .ok Xs =>
      let recon := model Xs
      if shapeEq recon Xs then
        let mse := List.zipWith rowMse Xs recon
        (load_threshold thrJson).map (fun thr => (mse, thr))
      else
        .error "Model output shape does not match input shape"

/-- The `range(0, len(l), bs)` chunking of the rows, as in the tflite batch
loop (`batch_size = 128` at the call site). -/
def batches (bs : ℕ) (l : List (List ℚ)) : List (List (List ℚ)) :=
  (List.range ((l.length + bs - 1) / bs)).map
    (fun i => (l.drop (i * bs)).take bs)

/-- Function `score_with_tflite`, on the `scaler.json` branch: standardize, check
the interpreter's declared input width (`expected`) against the feature
width before any invoke, then run the model batch by batch (128 rows)
and concatenate the per-row mse. -/
def score_with_tflite (X : List (List ℚ)) (mean scale : List ℚ)
    (expected : ℕ) (model : List (List ℚ) → List (List ℚ))
    (thrJson : List (String × JVal)) : Except String (List ℚ × ℚ) :=
  match standardize_with_json X mean scale with
  | .error e => .error e
  | .ok Xs =>
      let d := ncols Xs
      if expected ≠ d then
        .error "TFLite model expects a different dim"
      else
        let mse := (batches 128 Xs).flatMap
          (fun xb => List.zipWith rowMse xb (model xb))
        (load_threshold thrJson).map (fun thr => (mse, thr))

/-- The expression `scores = np.minimum(1.0, mse / float(thr))` in `main`, one entry. -/
def normalize (mse thr : ℚ) : ℚ := min 1 (mse / thr)

/-- The `--out` step of `main`: re-read the original CSV, filter to
known-gesture rows again, and append the `mse` and `score` columns
positionally to the surviving rows. -/
def writeOut (rows : List CsvRow) (mse scores : List ℚ) :
    List (CsvRow × ℚ × ℚ) :=
  List.zipWith3 (fun r m s => (r, m, s))
    (rows.filter (knownRow DEFAULT_MAP)) mse scores

instance {ε α : Type} [DecidableEq ε] [DecidableEq α] :
    DecidableEq (Except ε α) := fun a b =>
  match a, b with
  | .error e, .error f =>
      if h : e = f then .isTrue (by rw [h]) else .isFalse (by simp [h])
  | .error _, .ok _ => .isFalse (by simp)
  | .ok _, .error _ => .isFalse (by simp)
  | .ok x, .ok y =>
      if h : x = y then .isTrue (by rw [h]) else .isFalse (by simp [h])

/-- Whether a fallible computation raised (its `Except` result is an
`error`). -/
def isErr : Except String α → Bool
  | .error _ => true
  | .ok _ => false

/-! ### Helper lemmas -/

/-- Projecting the original row out of the rows produced by `writeOut`
recovers the zipped list when the appended columns are long enough. -/
theorem map_fst_zipWith3_triple (l : List CsvRow) (a b : List ℚ)
    (h1 : l.length ≤ a.length) (h2 : l.length ≤ b.length) :
    (List.zipWith3 (fun r m s => (r, m, s)) l a b).map Prod.fst = l := by
  induction l generalizing a b with
  | nil => rfl
  | cons x xs ih =>
    cases a with
    | nil => simp at h1
    | cons y ys =>
      cases b with
      | nil => simp at h2
      | cons z zs =>
        simpa [List.zipWith3] using
          ih ys zs (by simpa using h1) (by simpa using h2)

/-! ### Claim theorems -/

/-- C3: for every `mse ≥ 0` and `threshold > 0`,
`normalize(mse, threshold) = min(1.0, mse / threshold)` lies in `[0,1]`,
is monotonically non-decreasing in `mse`, and satisfies
`normalize(threshold, threshold) = 1` and `normalize(0, threshold) = 0`. -/
theorem normalize_bounds_monotone (mse thr : ℚ) (hm : 0 ≤ mse)
    (ht : 0 < thr) :
    0 ≤ normalize mse thr ∧ normalize mse thr ≤ 1 ∧
    (∀ m2, mse ≤ m2 → normalize mse thr ≤ normalize m2 thr) ∧
    normalize thr thr = 1 ∧ normalize 0 thr = 0 := by
  refine ⟨le_min zero_le_one (div_nonneg hm ht.le), min_le_left _ _,
    fun m2 h => min_le_min le_rfl ((div_le_div_iff_of_pos_right ht).mpr h),
    ?_, ?_⟩
  · unfold normalize
    rw [div_self (ne_of_gt ht), min_self]
  · unfold normalize
    rw [zero_div]
    exact min_eq_right zero_le_one

/-- Witness for C3 at `mse = 1`, `thr = 2`. -/
theorem normalize_bounds_monotone_witness :
    0 ≤ normalize 1 2 ∧ normalize 1 2 ≤ 1 ∧
    (∀ m2, (1 : ℚ) ≤ m2 → normalize 1 2 ≤ normalize m2 2) ∧
    normalize 2 2 = 1 ∧ normalize 0 2 = 0 :=
  normalize_bounds_monotone 1 2 (by norm_num) (by norm_num)

/-- C4: standardizer round-trip law — for every vector `v` and scaler
whose `mean` and `scale` have the same length as `v` and whose `scale`
has no zero entries, `v = mean + apply(v, s) * scale` element-wise over
exact arithmetic. -/
theorem standardize_roundtrip (v mean scale : List ℚ)
    (h1 : mean.length = v.length) (h2 : scale.length = v.length)
    (h3 : ∀ s ∈ scale, s ≠ 0) :
    List.zipWith3 (fun m a s => m + a * s) mean (stdRow v mean scale) scale
      = v := by
  induction v generalizing mean scale with
  | nil =>
    rw [List.length_eq_zero.mp h1, List.length_eq_zero.mp h2]
    rfl
  | cons x vt ih =>
    cases mean with
    | nil => simp at h1
    | cons m mt =>
      cases scale with
      | nil => simp at h2
      | cons s st =>
        have hs : s ≠ 0 := h3 s (List.mem_cons_self s st)
        have hhead : m + (x - m) / safeScale s * s = x := by
          rw [safeScale, if_neg hs, div_mul_cancel₀ _ hs]
          ring
        have htail := ih mt st (by simpa using h1) (by simpa using h2)
          (fun u hu => h3 u (List.mem_cons_of_mem s hu))
        simpa [stdRow, List.zipWith3, hhead] using htail

/-- Witness for C4 at `v = [2, 3]`, `mean = [1, 1]`, `scale = [2, 4]`. -/
theorem standardize_roundtrip_witness :
    List.zipWith3 (fun m a s => m + a * s) [1, 1]
      (stdRow [2, 3] [1, 1] [2, 4]) [2, 4] = [(2 : ℚ), 3] :=
  standardize_roundtrip [2, 3] [1, 1] [2, 4] (by decide) (by decide)
    (by decide)

/-- C2 counterexample: a stored threshold of `-1` is accepted by
`load_threshold` (no `InvalidThresholdError` is raised, eagerly or
otherwise), and the sklearn driver happily returns mse values paired
with the negative threshold. -/
theorem load_threshold_accepts_nonpositive :
    load_threshold [("threshold", JVal.jnum (-1))] = Except.ok (-1) ∧
    score_with_sklearn [[1]] [0] [1] (fun y => y)
      [("threshold", JVal.jnum (-1))] = Except.ok ([0], -1) := by
  refine ⟨rfl, ?_⟩
  simp [score_with_sklearn, standardize_with_json, ncols, stdRow,
    List.zipWith3, shapeEq, rowMse, load_threshold, lookup, safeScale,
    Except.map]

/-- C2 amended: `load_threshold` validates only that the `"threshold"`
key is present (a missing key is an error); every numeric value `q`,
including `q ≤ 0`, is accepted, and the sklearn driver then computes
mse results with that threshold rather than failing. -/
theorem load_threshold_key_presence_only (q : ℚ) :
    load_threshold [("threshold", JVal.jnum q)] = Except.ok q ∧
    isErr (load_threshold []) = true ∧
    score_with_sklearn [[1]] [0] [1] (fun y => y)
      [("threshold", JVal.jnum q)] = Except.ok ([0], q) := by
  refine ⟨rfl, rfl, ?_⟩
  simp [score_with_sklearn, standardize_with_json, ncols, stdRow,
    List.zipWith3, shapeEq, rowMse, load_threshold, lookup, safeScale,
    Except.map]

/-- C8 counterexample: with an original CSV of two rows, one labelled
`"PINCH"` (unknown), the `--out` step emits only the recognized row —
the `PINCH` row does not appear in the output at all, so the output is
not a copy of the unfiltered input. -/
theorem writeOut_drops_unknown_rows :
    writeOut [⟨"TAP", [250, 137, 1, 1, 1, 1, 1, 0, 1]⟩,
              ⟨"PINCH", [100, 50, 1, 1, 1, 1, 1, 1, 1]⟩] [0] [0]
      = [(⟨"TAP", [250, 137, 1, 1, 1, 1, 1, 0, 1]⟩, 0, 0)] ∧
    ∀ p ∈ writeOut [⟨"TAP", [250, 137, 1, 1, 1, 1, 1, 0, 1]⟩,
              ⟨"PINCH", [100, 50, 1, 1, 1, 1, 1, 1, 1]⟩] [0] [0],
      (p.1).label ≠ "PINCH" := by
  constructor <;> decide

/-- C8 amended: the output CSV contains exactly the recognized-label
rows of the original input — rows with unrecognized labels are omitted —
in their original relative order, each with its original columns
unchanged and only the `mse` and `score` columns appended. -/
theorem writeOut_preserves_surviving_rows (rows : List CsvRow)
    (mse scores : List ℚ)
    (h1 : (rows.filter (knownRow DEFAULT_MAP)).length ≤ mse.length)
    (h2 : (rows.filter (knownRow DEFAULT_MAP)).length ≤ scores.length) :
    (writeOut rows mse scores).map Prod.fst
        = rows.filter (knownRow DEFAULT_MAP) ∧
    (rows.filter (knownRow DEFAULT_MAP)).Sublist rows :=
  ⟨map_fst_zipWith3_triple _ _ _ h1 h2, List.filter_sublist rows⟩

/-- Witness for C8's amended claim on a two-row input with one unknown
label. -/
theorem writeOut_preserves_surviving_rows_witness :
    (writeOut [⟨"TAP", [1, 1, 1, 1, 1, 1, 1, 1, 1]⟩,
               ⟨"PINCH", [2, 2, 2, 2, 2, 2, 2, 2, 2]⟩] [0] [0]).map Prod.fst
        = [⟨"TAP", [1, 1, 1, 1, 1, 1, 1, 1, 1]⟩,
           ⟨"PINCH", [2, 2, 2, 2, 2, 2, 2, 2, 2]⟩].filter
            (knownRow DEFAULT_MAP) ∧
    ([⟨"TAP", [1, 1, 1, 1, 1, 1, 1, 1, 1]⟩,
      ⟨"PINCH", [2, 2, 2, 2, 2, 2, 2, 2, 2]⟩].filter
        (knownRow DEFAULT_MAP)).Sublist
      [⟨"TAP", [1, 1, 1, 1, 1, 1, 1, 1, 1]⟩,
       ⟨"PINCH", [2, 2, 2, 2, 2, 2, 2, 2, 2]⟩] :=
  writeOut_preserves_surviving_rows _ _ _ (by decide) (by decide)

/-- The serve loop writes no line for a blank input line and exactly one
line for any non-blank one. -/
theorem length_serveStep (parse : String → Except String JVal)
    (x : String) :
    (serveStep parse x).length
      = if (pyStrip x).data.isEmpty then 0 else 1 := by
  unfold serveStep
  cases hx : (pyStrip x).data.isEmpty with
  | false =>
    simp only [hx, Bool.false_eq_true, if_false]
    cases parse (pyStrip x) <;> rfl
  | true => simp [hx]

/-- C1 counterexample: a whitespace-only input line is skipped by the
`continue` branch — the service emits zero output lines for it, not one,
whatever `json.loads` would have said. -/
theorem serveLines_skips_blank_line :
    serveLines (fun _ => Except.error "Expecting value") ["   "] = [] ∧
    (["   "] : List String).length = 1 := by
  constructor <;> rfl

/-- C1 amended: the service emits exactly one output line per input line
that is non-blank after stripping (blank lines are skipped with no
output), and a non-blank line that fails JSON parsing produces one error
line while processing continues with the remaining lines. -/
theorem serveLines_one_output_per_nonblank_line
    (parse : String → Except String JVal) (lines : List String)
    (l : String) (rest : List String) (msg : String)
    (hnb : (pyStrip l).data.isEmpty = false)
    (hp : parse (pyStrip l) = .error msg) :
    (serveLines parse lines).length
      = lines.countP (fun s => !(pyStrip s).data.isEmpty) ∧
    serveLines parse (l :: rest) = Output.err msg :: serveLines parse rest := by
  constructor
  · induction lines with
    | nil => rfl
    | cons x xs ih =>
      rw [serveLines, List.length_append, ih, List.countP_cons,
        length_serveStep]
      cases hx : (pyStrip x).data.isEmpty <;> simp [hx, Nat.add_comm]
  · show serveStep parse l ++ serveLines parse rest = _
    unfold serveStep
    simp [hnb, hp]

/-- Witness for C1's amended claim: a concrete parse function and the
concrete input stream `["a", " ", "b"]` (two non-blank lines, one
blank), plus the malformed head line `"x"`. -/
theorem serveLines_one_output_per_nonblank_line_witness :
    (serveLines (fun _ => Except.error "bad") ["a", " ", "b"]).length
      = (["a", " ", "b"].countP (fun s => !(pyStrip s).data.isEmpty)) ∧
    serveLines (fun _ => Except.error "bad") ["x"]
      = Output.err "bad" :: serveLines (fun _ => Except.error "bad") [] :=
  serveLines_one_output_per_nonblank_line (fun _ => Except.error "bad")
    ["a", " ", "b"] "x" [] "bad" rfl rfl

/-- Length of one standardized row. -/
theorem length_stdRow (row mean scale : List ℚ) :
    (stdRow row mean scale).length
      = min row.length (min mean.length scale.length) := by
  induction row generalizing mean scale with
  | nil => simp [stdRow, List.zipWith3]
  | cons x xt ih =>
    cases mean with
    | nil => simp [stdRow, List.zipWith3]
    | cons m mt =>
      cases scale with
      | nil => simp [stdRow, List.zipWith3]
      | cons s st =>
        have := ih mt st
        simp only [stdRow, List.zipWith3, List.length_cons] at this ⊢
        omega

/-- Evaluation of `standardize_with_json` when the dimension check
fails. -/
theorem standardize_with_json_err (X : List (List ℚ)) (mean scale : List ℚ)
    (h : mean.length ≠ ncols X ∨ scale.length ≠ ncols X) :
    standardize_with_json X mean scale
      = .error "Scaler dim does not match input dim" := by
  rw [standardize_with_json, if_pos h]

/-- Evaluation of `standardize_with_json` when the dimension check
passes. -/
theorem standardize_with_json_ok (X : List (List ℚ)) (mean scale : List ℚ)
    (h1 : mean.length = ncols X) (h2 : scale.length = ncols X) :
    standardize_with_json X mean scale
      = .ok (X.map (fun row => stdRow row mean scale)) := by
  rw [standardize_with_json, if_neg (by push_neg; exact ⟨h1, h2⟩)]

/-- C5: a dimension mismatch between the scaler (`N` features) and the
reconstruction model (`M ≠ N` features) always makes both inference
drivers fail — no score is ever produced from a silently truncated or
padded feature vector, on either the sklearn or the tflite backend.
The model is abstract: it maps any matrix to one with the same row
count and rows of width `M` (for the tflite backend, `M` is also the
interpreter's declared input width). -/
theorem dim_mismatch_always_rejected (X : List (List ℚ))
    (mean scale : List ℚ) (model : List (List ℚ) → List (List ℚ))
    (N M : ℕ) (thrJson : List (String × JVal)) (hX : X ≠ [])
    (hmean : mean.length = N) (hscale : scale.length = N)
    (hmodel : ∀ Y, (model Y).length = Y.length ∧
      ∀ r ∈ model Y, r.length = M)
    (hNM : N ≠ M) :
    isErr (score_with_sklearn X mean scale model thrJson) = true ∧
    isErr (score_with_tflite X mean scale M model thrJson) = true := by
  obtain ⟨x, Xt, rfl⟩ : ∃ x Xt, X = x :: Xt := by
    cases X with
    | nil => exact absurd rfl hX
    | cons a b => exact ⟨a, b, rfl⟩
  by_cases hcond : mean.length ≠ ncols (x :: Xt) ∨
      scale.length ≠ ncols (x :: Xt)
  · rw [score_with_sklearn, score_with_tflite,
      standardize_with_json_err _ _ _ hcond]
    exact ⟨rfl, rfl⟩
  · push_neg at hcond
    obtain ⟨h1, h2⟩ := hcond
    have hxN : x.length = N := by
      have : mean.length = x.length := by simpa [ncols] using h1
      omega
    have hhead : (stdRow x mean scale).length = N := by
      rw [length_stdRow, hmean, hscale, hxN]
      omega
    have hncols : ncols ((x :: Xt).map (fun row => stdRow row mean scale))
        = N := by
      simpa [ncols] using hhead
    constructor
    · rw [score_with_sklearn, standardize_with_json_ok _ _ _ h1 h2]
      cases hse : shapeEq
          (model ((x :: Xt).map (fun row => stdRow row mean scale)))
          ((x :: Xt).map (fun row => stdRow row mean scale)) with
      | false =>
        rw [List.map_cons] at hse
        simp [hse, isErr]
      | true =>
        exfalso
        set Xs := (x :: Xt).map (fun row => stdRow row mean scale) with hXs
        rw [shapeEq, Bool.and_eq_true, beq_iff_eq, beq_iff_eq] at hse
        obtain ⟨r, rt, hr⟩ : ∃ r rt, model Xs = r :: rt := by
          cases hmXs : model Xs with
          | nil =>
            have := (hmodel Xs).1
            rw [hmXs] at this
            simp [hXs] at this
          | cons r rt => exact ⟨r, rt, rfl⟩
        have hrM : r.length = M :=
          (hmodel Xs).2 r (by rw [hr]; exact List.mem_cons_self r rt)
        have hmap := hse.2
        rw [hr, hXs] at hmap
        simp only [List.map_cons, List.cons.injEq] at hmap
        exact hNM (by rw [← hhead, ← hmap.1, hrM])
    · rw [score_with_tflite, standardize_with_json_ok _ _ _ h1 h2]
      have hMd : M ≠ ncols ((x :: Xt).map (fun row => stdRow row mean scale)) := by
        rw [hncols]
        exact fun h => hNM h.symm
      rw [List.map_cons] at hMd
      simp [hMd, isErr]

/-- Witness for C5: a one-row input of width 2, a width-2 scaler, and a
model that reconstructs every row at width 3. -/
theorem dim_mismatch_always_rejected_witness :
    isErr (score_with_sklearn [[1, 2]] [0, 0] [1, 1]
      (fun y => y.map (fun _ => [0, 0, 0]))
      [("threshold", JVal.jnum 1)]) = true ∧
    isErr (score_with_tflite [[1, 2]] [0, 0] [1, 1] 3
      (fun y => y.map (fun _ => [0, 0, 0]))
      [("threshold", JVal.jnum 1)]) = true :=
  dim_mismatch_always_rejected [[1, 2]] [0, 0] [1, 1]
    (fun y => y.map (fun _ => [0, 0, 0])) 2 3 [("threshold", JVal.jnum 1)]
    (by decide) rfl rfl
    (fun Y => ⟨by simp, fun r hr => by
      obtain ⟨a, _, h⟩ := List.mem_map.mp hr
      simp [← h]⟩)
    (by decide)

/-- C7: label round-trip — when the mapping's keys are unique (a Python
dict invariant) and its numeric codes are pairwise separated by more
than the tolerance `tol ≥ 0`, decoding the encoded value of a label in
the map recovers that label:
`from_numeric(to_numeric(l, map), map, tol) = l`. -/
theorem label_roundtrip (mapping : List (String × ℚ)) (l : String)
    (c tol : ℚ) (hmem : (l, c) ∈ mapping)
    (hkeys : (mapping.map Prod.fst).Nodup) (htol : 0 ≤ tol)
    (hsep : mapping.Pairwise (fun a b => tol < |a.2 - b.2|)) :
    to_numeric l mapping none = .ok c ∧ from_numeric c mapping tol = .ok l := by
  constructor
  · induction mapping with
    | nil => exact absurd hmem (List.not_mem_nil _)
    | cons p t ih =>
      by_cases hk : p.1 = l
      · have hpl : (l, c) = p := by
          rcases List.mem_cons.mp hmem with h | h
          · exact h
          · exfalso
            have hl : l ∈ t.map Prod.fst :=
              List.mem_map.mpr ⟨(l, c), h, rfl⟩
            rw [← hk] at hl
            exact (List.nodup_cons.mp hkeys).1 hl
        rw [to_numeric, List.find?_cons_of_pos _ (by simp [hk]), ← hpl]
      · have hmem' : (l, c) ∈ t := by
          rcases List.mem_cons.mp hmem with h | h
          · exact absurd (congrArg Prod.fst h).symm hk
          · exact h
        have ht := ih hmem' (List.nodup_cons.mp hkeys).2
          (List.Pairwise.sublist (List.sublist_cons_self p t) hsep)
        rw [to_numeric] at ht
        rw [to_numeric, List.find?_cons_of_neg _ (by simp [hk])]
        exact ht
  · induction mapping with
    | nil => exact absurd hmem (List.not_mem_nil _)
    | cons p t ih =>
      rw [List.pairwise_cons] at hsep
      by_cases hd : |p.2 - c| ≤ tol
      · have hpl : p = (l, c) := by
          rcases List.mem_cons.mp hmem with h | h
          · exact h.symm
          · exact absurd (hsep.1 (l, c) h) (by simpa using hd)
        rw [from_numeric, List.find?_cons_of_pos _ (by simp [hd]), hpl]
      · have hmem' : (l, c) ∈ t := by
          rcases List.mem_cons.mp hmem with h | h
          · exfalso
            apply hd
            rw [← h]
            simpa using htol
          · exact h
        have ht := ih hmem' (List.nodup_cons.mp hkeys).2 hsep.2
        rw [from_numeric] at ht
        rw [from_numeric, List.find?_cons_of_neg _ (by simp [hd])]
        exact ht

/-- Witness for C7 on the default map at `l = "SWIPE"` with the default
tolerance. -/
theorem label_roundtrip_witness :
    to_numeric "SWIPE" DEFAULT_MAP none = .ok 1 ∧
    from_numeric 1 DEFAULT_MAP (1 / 1000000) = .ok "SWIPE" :=
  label_roundtrip DEFAULT_MAP "SWIPE" 1 (1 / 1000000)
    (by decide) (by decide) (by norm_num)
    (by norm_num [DEFAULT_MAP, List.pairwise_cons])

/-- C9: the persistent service computes mse only over feature keys
present with a numeric value — a key that is absent, or bound to a
non-numeric value, contributes nothing — and a parsed record with zero
usable numeric keys is answered with `ok = true`, `mse = 0`,
`score = 0` rather than an error. -/
theorem serve_mse_skips_unusable_keys (feats : List (String × JVal)) :
    ((∀ p ∈ SCALES, usableVal feats p.1 = none) →
      processData (.jobj feats) = .ok 0 1 0) ∧
    (∀ k v, lookup k feats = none → numVal v = none →
      compute_mse ((k, v) :: feats) = compute_mse feats) := by
  constructor
  · intro h
    have hmse : compute_mse feats = 0 := by
      rw [compute_mse]
      have : SCALES.filterMap
          (fun p => (usableVal feats p.1).map (fun q => (q / p.2) ^ 2))
            = [] :=
        List.filterMap_eq_nil_iff.mpr (fun p hp => by rw [h p hp]; rfl)
      simp [this]
    rw [processData, hmse]
    norm_num
  · intro k v habsent hnon
    rw [compute_mse, compute_mse]
    have hpt : ∀ p ∈ SCALES,
        usableVal ((k, v) :: feats) p.1 = usableVal feats p.1 := by
      intro p _
      by_cases hk : k = p.1
      · rw [usableVal, usableVal, lookup,
          List.find?_cons_of_pos _ (by simp [hk]), ← hk, habsent]
        simpa using hnon
      · rw [usableVal, usableVal, lookup, lookup,
          List.find?_cons_of_neg _ (by simp [hk])]
    rw [List.filterMap_congr (fun p hp => by rw [hpt p hp])]

/-- Witness for C9: a record whose only `SCALES` key is bound to a
string, plus an extra unknown key, is scored `ok` with
`mse = score = 0`; prepending a `null` binding for an absent key leaves
the mse unchanged. -/
theorem serve_mse_skips_unusable_keys_witness :
    processData (.jobj [("duration_ms", JVal.jstr "x"), ("foo", JVal.jnum 3)])
      = .ok 0 1 0 ∧
    compute_mse (("avg_pressure", JVal.jnull)
        :: [("duration_ms", JVal.jstr "x"), ("foo", JVal.jnum 3)])
      = compute_mse [("duration_ms", JVal.jstr "x"), ("foo", JVal.jnum 3)] :=
  ⟨(serve_mse_skips_unusable_keys
      [("duration_ms", JVal.jstr "x"), ("foo", JVal.jnum 3)]).1
      (by intro p hp; fin_cases hp <;> rfl),
   (serve_mse_skips_unusable_keys
      [("duration_ms", JVal.jstr "x"), ("foo", JVal.jnum 3)]).2
      "avg_pressure" JVal.jnull rfl rfl⟩

/-- Over a scale table with unique keys, a single-key record
contributes exactly its own squared scaled value to the mse sum. -/
theorem filterMap_usable_single (L : List (String × ℚ)) (k : String)
    (scale : ℚ) (v : JVal) (q : ℚ) (hv : numVal v = some q)
    (hnd : (L.map Prod.fst).Nodup) (hm : (k, scale) ∈ L) :
    L.filterMap
        (fun p => (usableVal [(k, v)] p.1).map (fun x => (x / p.2) ^ 2))
      = [(q / scale) ^ 2] := by
  induction L with
  | nil => exact absurd hm (List.not_mem_nil _)
  | cons p t ih =>
    by_cases hk : p.1 = k
    · have hpk : p = (k, scale) := by
        rcases List.mem_cons.mp hm with h | h
        · exact h.symm
        · exfalso
          have hl : k ∈ t.map Prod.fst :=
            List.mem_map.mpr ⟨(k, scale), h, rfl⟩
          rw [← hk] at hl
          exact (List.nodup_cons.mp hnd).1 hl

      have hu : usableVal [(k, v)] p.1 = some q := by
        rw [hk]
        simp [usableVal, lookup, List.find?, hv]
      have htail : t.filterMap
          (fun p => (usableVal [(k, v)] p.1).map (fun x => (x / p.2) ^ 2))
            = [] := by
        refine List.filterMap_eq_nil_iff.mpr (fun p' hp' => ?_)
        have hne : p'.1 ≠ k := by
          intro he
          apply (List.nodup_cons.mp hnd).1
          rw [hk]
          exact he ▸ List.mem_map.mpr ⟨p', hp', rfl⟩
        have : usableVal [(k, v)] p'.1 = none := by
          simp [usableVal, lookup, List.find?, Ne.symm hne]
        rw [this]
        rfl
      rw [List.filterMap_cons_some (by rw [hu]; rfl), htail, hpk]
    · have hu : usableVal [(k, v)] p.1 = none := by
        simp [usableVal, lookup, List.find?, Ne.symm hk]
      rw [List.filterMap_cons_none (by rw [hu]; rfl)]
      exact ih (List.nodup_cons.mp hnd).2
        (by rcases List.mem_cons.mp hm with h | h
            · exact absurd (congrArg Prod.fst h).symm hk
            · exact h)

/-- C10: a JSON boolean bound to a known feature key passes the
`isinstance(v, (int, float))` filter (Python's `bool` is a subclass of
`int`), so it is scored as a number: alone in a record it yields
`mse = (1/scale)^2` for `true` and `mse = 0` for `false`. -/
theorem bool_counts_as_numeric (k : String) (scale : ℚ) (b : Bool)
    (h : (k, scale) ∈ SCALES) :
    numVal (.jbool b) = some (if b then 1 else 0) ∧
    compute_mse [(k, .jbool b)] = if b then (1 / scale) ^ 2 else 0 := by
  refine ⟨rfl, ?_⟩
  rw [compute_mse,
    filterMap_usable_single SCALES k scale (.jbool b) (if b then 1 else 0)
      rfl (by decide) h]
  cases b <;> norm_num

/-- Witness for C10 at `k = "duration_ms"` (`scale = 500`),
`b = true`. -/
theorem bool_counts_as_numeric_witness :
    numVal (.jbool true) = some (if true then 1 else 0) ∧
    compute_mse [("duration_ms", .jbool true)]
      = if true then (1 / (500 : ℚ)) ^ 2 else 0 :=
  bool_counts_as_numeric "duration_ms" 500 true (by decide)

/-- Inversion of a successful standardization: the result is the
row-wise standardized input. -/
theorem standardize_with_json_ok_inv (X : List (List ℚ))
    (mean scale : List ℚ) (Xs : List (List ℚ))
    (h : standardize_with_json X mean scale = .ok Xs) :
    Xs = X.map (fun row => stdRow row mean scale) := by
  rw [standardize_with_json] at h
  by_cases hc : mean.length ≠ ncols X ∨ scale.length ≠ ncols X
  · rw [if_pos hc] at h
    exact absurd h (by simp)
  · rw [if_neg hc] at h
    injection h with h
    exact h.symm

/-- A successful sklearn scoring run returns exactly one mse entry per
input row. -/
theorem score_with_sklearn_ok_length (X : List (List ℚ))
    (mean scale : List ℚ) (model : List (List ℚ) → List (List ℚ))
    (thrJson : List (String × JVal)) (mse : List ℚ) (thr : ℚ)
    (h : score_with_sklearn X mean scale model thrJson = .ok (mse, thr)) :
    mse.length = X.length := by
  rw [score_with_sklearn] at h
  cases hstd : standardize_with_json X mean scale with
  | error e => rw [hstd] at h; simp at h
  | ok Xs =>
    rw [hstd] at h
    cases hse : shapeEq (model Xs) Xs with
    | false => simp [hse] at h
    | true =>
      simp only [hse, if_true] at h
      cases hthr : load_threshold thrJson with
      | error e => rw [hthr] at h; simp [Except.map] at h
      | ok thr' =>
        rw [hthr] at h
        simp only [Except.map, Except.ok.injEq, Prod.mk.injEq] at h
        rw [← h.1, List.length_zipWith]
        rw [shapeEq, Bool.and_eq_true, beq_iff_eq, beq_iff_eq] at hse
        rw [standardize_with_json_ok_inv X mean scale Xs hstd] at hse ⊢
        simp only [List.length_map] at hse ⊢
        omega

/-- C6: the batch driver silently drops rows whose first field is not a
recognized gesture label, fails when zero rows survive the filter, and
otherwise scores exactly the surviving rows — one mse entry per
surviving row, the survivors keeping their original relative order
(they form a sublist of the input). -/
theorem batch_filter_and_scores (rows : List CsvRow) (mean scale : List ℚ)
    (model : List (List ℚ) → List (List ℚ))
    (thrJson : List (String × JVal)) :
    (rows.filter (knownRow DEFAULT_MAP) = [] →
      isErr (load_csv rows) = true) ∧
    (rows.filter (knownRow DEFAULT_MAP) ≠ [] →
      load_csv rows
        = .ok ((rows.filter (knownRow DEFAULT_MAP)).map encodeRow)) ∧
    (rows.filter (knownRow DEFAULT_MAP)).Sublist rows ∧
    (∀ X mse thr, load_csv rows = .ok X →
      score_with_sklearn X mean scale model thrJson = .ok (mse, thr) →
      mse.length = (rows.filter (knownRow DEFAULT_MAP)).length) := by
  refine ⟨?_, ?_, List.filter_sublist rows, ?_⟩
  · intro h
    rw [load_csv]
    simp [h, isErr]
  · intro h
    rw [load_csv, if_neg (by simpa [List.isEmpty_iff] using h)]
  · intro X mse thr hload hscore
    have hX : X = (rows.filter (knownRow DEFAULT_MAP)).map encodeRow := by
      rw [load_csv] at hload
      by_cases hc : (rows.filter (knownRow DEFAULT_MAP)).isEmpty
      · rw [if_pos hc] at hload
        exact absurd hload (by simp)
      · rw [if_neg hc] at hload
        injection hload with hload
        exact hload.symm
    have := score_with_sklearn_ok_length X mean scale model thrJson
      mse thr hscore
    rw [this, hX, List.length_map]

/-- Witness for C6: the spec's five-row scenario with one unknown label
`"PINCH"` — four rows survive and the identity-reconstruction model
yields exactly four mse entries. -/
theorem batch_filter_and_scores_witness :
    load_csv [⟨"TAP", [1, 2, 3, 4, 5, 6, 7, 8, 9]⟩,
              ⟨"SWIPE", [1, 1, 1, 1, 1, 1, 1, 1, 1]⟩,
              ⟨"PINCH", [2, 2, 2, 2, 2, 2, 2, 2, 2]⟩,
              ⟨"TAP", [3, 3, 3, 3, 3, 3, 3, 3, 3]⟩,
              ⟨"SWIPE", [4, 4, 4, 4, 4, 4, 4, 4, 4]⟩]
      = .ok (([⟨"TAP", [1, 2, 3, 4, 5, 6, 7, 8, 9]⟩,
              ⟨"SWIPE", [1, 1, 1, 1, 1, 1, 1, 1, 1]⟩,
              ⟨"PINCH", [2, 2, 2, 2, 2, 2, 2, 2, 2]⟩,
              ⟨"TAP", [3, 3, 3, 3, 3, 3, 3, 3, 3]⟩,
              ⟨"SWIPE", [4, 4, 4, 4, 4, 4, 4, 4, 4]⟩].filter
                (knownRow DEFAULT_MAP)).map encodeRow) ∧
    ([0, 0, 0, 0] : List ℚ).length
      = ([⟨"TAP", [1, 2, 3, 4, 5, 6, 7, 8, 9]⟩,
          ⟨"SWIPE", [1, 1, 1, 1, 1, 1, 1, 1, 1]⟩,
          ⟨"PINCH", [2, 2, 2, 2, 2, 2, 2, 2, 2]⟩,
          ⟨"TAP", [3, 3, 3, 3, 3, 3, 3, 3, 3]⟩,
          ⟨"SWIPE", [4, 4, 4, 4, 4, 4, 4, 4, 4]⟩].filter
            (knownRow DEFAULT_MAP)).length :=
  ⟨(batch_filter_and_scores _ [0, 0, 0, 0, 0, 0, 0, 0, 0, 0]
      [1, 1, 1, 1, 1, 1, 1, 1, 1, 1] (fun y => y)
      [("threshold", JVal.jnum 1)]).2.1 (by decide),
   (batch_filter_and_scores _ [0, 0, 0, 0, 0, 0, 0, 0, 0, 0]
      [1, 1, 1, 1, 1, 1, 1, 1, 1, 1] (fun y => y)
      [("threshold", JVal.jnum 1)]).2.2.2
     [[0, 1, 2, 3, 4, 5, 6, 7, 8, 9],
      [1, 1, 1, 1, 1, 1, 1, 1, 1, 1],
      [0, 3, 3, 3, 3, 3, 3, 3, 3, 3],
      [1, 4, 4, 4, 4, 4, 4, 4, 4, 4]] [0, 0, 0, 0] 1
     (by decide)
     (by simp [score_with_sklearn, standardize_with_json, ncols, stdRow,
       List.zipWith3, shapeEq, rowMse, load_threshold, lookup, safeScale,
       Except.map])⟩

end FraudGuard
